import Mathlib

/-!
Shallow embedding of the FlightDeals price-tracking core
(`src/data_manager.py` and the sweep loop of `src/app.py`).

The backing spreadsheet is modelled as an ordered list of sheets, each a
title together with an ordered list of rows; every cell is a string, as
returned by the sheets `values.get` call.  Prices written by the program
(Python ints, sent with `USER_ENTERED` / `RAW`) are stored as their decimal
rendering and parsed back with a model of Python's `int()`.
-/

namespace FlightDeals

/-- One spreadsheet row: the list of its cell contents (column A, B, ...). -/
abbrev Row := List String

/-- The whole spreadsheet: sheets in creation order, each `(title, rows)`. -/
abbrev Store := List (String × List Row)

/-- Models whitespace accepted (and stripped) by Python's `int()`. -/
def isPySpace (c : Char) : Bool :=
  c == ' ' || c == '\t' || c == '\n' || c == '\r' || c == '\x0b' || c == '\x0c'

/-- Strip leading and trailing whitespace, as `int()` does before parsing. -/
def pyStrip (cs : List Char) : List Char :=
  ((cs.dropWhile isPySpace).reverse.dropWhile isPySpace).reverse

/-- Numeric value of a decimal digit character. -/
def digitVal (c : Char) : Nat := c.toNat - 48

/-- Parse a nonempty all-digit character list as a decimal natural. -/
def parseNatDigits (cs : List Char) : Option Nat :=
  if cs.isEmpty then none
  else if cs.all Char.isDigit then
    some (cs.foldl (fun a c => 10 * a + digitVal c) 0)
  else none

/-- Model of Python's `int(s)` on a string: strip whitespace, optional
sign, then a nonempty run of decimal digits; anything else raises
(`none` here). -/
def int_py (s : String) : Option Int :=
  match pyStrip s.data with
  | [] => none
  | c :: rest =>
    if c == '-' then (parseNatDigits rest).map (fun n => -(n : Int))
    else if c == '+' then (parseNatDigits rest).map (fun n => (n : Int))
    else (parseNatDigits (c :: rest)).map (fun n => (n : Int))

/-- The decimal digit character for `d` (`d < 10`; mirrors `Nat.digitChar`). -/
def digitCh (d : Nat) : Char :=
  match d with
  | 0 => '0' | 1 => '1' | 2 => '2' | 3 => '3' | 4 => '4'
  | 5 => '5' | 6 => '6' | 7 => '7' | 8 => '8' | _ => '9'

/-- Fuel-driven core of the decimal rendering (the fuel only bounds the
recursion depth; it never runs out when it starts at the number itself). -/
def natDigitsF : Nat → Nat → List Char
  | 0, n => [digitCh (n % 10)]
  | fuel + 1, n =>
    if n < 10 then [digitCh n] else natDigitsF fuel (n / 10) ++ [digitCh (n % 10)]

/-- Decimal digit characters of a natural number, most significant first. -/
def natDigits (n : Nat) : List Char :=
  natDigitsF n n

/-- Decimal rendering of an integer, as Python's `str(int)` produces and as
the spreadsheet echoes back a numeric cell written by this program. -/
def int_repr (i : Int) : String :=
  match i with
  | .ofNat n => ⟨natDigits n⟩
  | .negSucc n => ⟨'-' :: natDigits (n + 1)⟩

/-- `DataManager._prepare_sheet_id`: sheet title used for an origin group. -/
def prepare_sheet_id (start_location : String) : String :=
  "FROM_" ++ start_location

/-- `DataManager._check_if_sheet_exists`: is there a sheet with this title? -/
def check_if_sheet_exists (store : Store) (sheet_id : String) : Bool :=
  store.any (fun s => s.1 == sheet_id)

/-- `DataManager._create_sheet` (successful `addSheet` call): a fresh empty
sheet with the given title is added to the spreadsheet. -/
def create_sheet (store : Store) (sheet_id : String) : Store :=
  store ++ [(sheet_id, [])]

/-- Rows of the sheet with the given title (`values.get` over `A:B`);
`_read_data` returns `[]` when the sheet does not exist. -/
def sheet_rows (store : Store) (sheet_id : String) : List Row :=
  match store.find? (fun s => s.1 == sheet_id) with
  | some s => s.2
  | none => []

/-- `DataManager._append_data` (successful `values.append` call): the new
rows are inserted at the tail of the named sheet. -/
def append_data (store : Store) (sheet_id : String) (new_values : List Row) : Store :=
  store.map (fun s => if s.1 == sheet_id then (s.1, s.2 ++ new_values) else s)

/-- Overwrite the second cell of a row (column B), as an update of a
`B{n}` range does: missing leading cells materialise as empty strings. -/
def set_second (r : Row) (v : String) : Row :=
  match r with
  | [] => ["", v]
  | [a] => [a, v]
  | a :: _ :: rest => a :: v :: rest

/-- Overwrite cell `B{n}` (1-based row `n`) in a sheet's rows. -/
def set_cell_B (rows : List Row) (n : Nat) (v : String) : List Row :=
  rows.set (n - 1) (set_second (rows.getD (n - 1) []) v)

/-- `DataManager._update_data` (successful `values.update` call) on range
`'sheet_id'!B{n}`: the price cell of row `n` is overwritten. -/
def update_data (store : Store) (sheet_id : String) (n : Nat) (v : String) : Store :=
  store.map (fun s => if s.1 == sheet_id then (s.1, set_cell_B s.2 n v) else s)

/-- Python `dict` insertion: an existing key keeps its position and gets the
new value, a fresh key is appended at the tail. -/
def dict_insert (m : List (String × Int)) (k : String) (v : Int) : List (String × Int) :=
  if m.any (fun e => e.1 == k) then m.map (fun e => if e.1 == k then (k, v) else e)
  else m ++ [(k, v)]

/-- Python `dict` read: value stored at a key, if present. -/
def dict_get (m : List (String × Int)) (k : String) : Option Int :=
  (m.find? (fun e => e.1 == k)).map Prod.snd

/-- Errors surfaced by `DataManager` methods (all `ValueError` in Python). -/
inductive PyErr where
  | intParse    -- `int()` applied to an unparseable price cell
  | notUpdated  -- `raise ValueError('Flight data not updated')`
  deriving DecidableEq, Repr

/-- The dict comprehension of `_read_flights`:
rows of length exactly 2 contribute `row[0] -> int(row[1])` in order,
other rows are skipped; an unparseable price cell raises `ValueError`. -/
def build_flights : List Row → List (String × Int) → Except PyErr (List (String × Int))
  | [], acc => .ok acc
  | [a, b] :: rs, acc =>
    match int_py b with
    | some v => build_flights rs (dict_insert acc a v)
    | none => .error .intParse
  | _ :: rs, acc => build_flights rs acc

/-- `DataManager._read_flights`: the ordered destination-to-price mapping of
an origin group (empty when the sheet does not exist). -/
def read_flights (store : Store) (start_location : String) :
    Except PyErr (List (String × Int)) :=
  build_flights (sheet_rows store (prepare_sheet_id start_location)) []

/-- Outcome flags of the remote write calls: `true` models a normal round
trip, `false` an `HttpError` (or `updatedCells == 0`) reported by the API. -/
structure Backend where
  createOk : Bool
  appendOk : Bool
  updateOk : Bool

/-- The backend when every remote call succeeds. -/
def allOk : Backend := ⟨true, true, true⟩

/-- `DataManager._add_flight`: create the origin sheet if missing, then
append the `[destination, price]` row.  A failed create or append is only
logged — the method never raises. -/
def add_flight (b : Backend) (store : Store) (origin dest : String) (price : Int) : Store :=
  let sheet_id := prepare_sheet_id origin
  let store1 :=
    if check_if_sheet_exists store sheet_id then store
    else if b.createOk then create_sheet store sheet_id else store
  if b.appendOk && check_if_sheet_exists store1 sheet_id then
    append_data store1 sheet_id [[dest, int_repr price]]
  else store1

/-- The scan loop of `update_flight`: 1-based rank of the first entry of the
read mapping whose key equals the destination (`row_number`; Python keeps
`-1`, modelled as `none`, when no entry matches; the loop enumerates the
mapping's keys in stored order and stops at the first match). -/
def find_row_number : List (String × Int) → String → Option Nat
  | [], _ => none
  | e :: t, dest =>
    if e.1 == dest then some 1 else (find_row_number t dest).map (fun n => n + 1)

/-- `DataManager.update_flight`, the reconciliation engine: create-and-append
for a new origin, append for a novel destination, positional overwrite of
cell `B{row_number}` for an existing destination.  Raises `ValueError` when
the overwrite call reports failure, and propagates the `int()` error of
`_read_flights`. -/
def update_flight (b : Backend) (store : Store) (start dest : String) (price : Int) :
    Except PyErr Store :=
  let sheet_id := prepare_sheet_id start
  if !check_if_sheet_exists store sheet_id then
    .ok (add_flight b store start dest price)
  else
    match read_flights store start with
    | .error e => .error e
    | .ok existing_values =>
      match find_row_number existing_values dest with
      | none => .ok (add_flight b store start dest price)
      | some row_number =>
        if b.updateOk then .ok (update_data store sheet_id row_number (int_repr price))
        else .error .notUpdated

/-- `flight_data.FlightData`: the quote dataclass returned by the search
collaborator (`FlightSearch.obtain_flight_data`); the optional fields are
the dataclass defaults.  Prices flow through the system as integers. -/
structure FlightData where
  origin_airport : String
  destination_airport : String
  price : Int
  origin_city : Option String := none
  destination_city : Option String := none
  distance : Option Int := none
  deriving DecidableEq, Repr

/-- Modelled from the spec: `App._update` calls
`DataManager.get_start_locations`, which is absent from
`src/data_manager.py`; spec 4.3 requires `list_origins() -> ordered set of
origin codes`, "a derived view over created groups".  Each created group is
a sheet titled `FROM_<origin>`. -/
def get_start_locations (store : Store) : List String :=
  store.map (fun s => s.1.drop 5)

/-- Modelled from the spec: `App._update` calls
`DataManager.get_destination_airports`, which is absent from
`src/data_manager.py`; spec 4.3 says the destinations known under an origin
are `read_group(origin).keys()`. -/
def get_destination_airports (store : Store) (origin : String) : List String :=
  match read_flights store origin with
  | .ok m => m.map Prod.fst
  | .error _ => []

/-- An uncaught Python exception that aborts the sweep loop. -/
inductive SweepStop where
  | typeError  -- `update_flight(flight)`: one argument against signature (start, dest, price)
  deriving DecidableEq, Repr

/-- One iteration of the inner loop of `App._update` for a route pair: a
missing quote leaves `status_code == -1`, so nothing is written and no
message is sent; a found quote reaches
`self._data_manager.update_flight(flight)`, which raises `TypeError`
because `DataManager.update_flight` takes `(start, dest, price)`. -/
def sweep_pair (store : Store) (quote : Option FlightData) (_notify : Bool) :
    Except SweepStop (Store × List String) :=
  match quote with
  | none => .ok (store, [])
  | some _ => .error .typeError

/-- The inner loop of `App._update` over one origin's destinations. -/
def sweep_dests (store : Store) (search : String → String → Option FlightData)
    (notify : Bool) (o : String) : List String → Except SweepStop (Store × List String)
  | [] => .ok (store, [])
  | d :: ds =>
    match sweep_pair store (search o d) notify with
    | .error e => .error e
    | .ok (s1, msgs) =>
      match sweep_dests s1 search notify o ds with
      | .error e => .error e
      | .ok (s2, msgs2) => .ok (s2, msgs ++ msgs2)

/-- The outer loop of `App._update` over all origins; each origin's
destination list is read from the store as it stands when that origin is
reached. -/
def sweep_origins (store : Store) (search : String → String → Option FlightData)
    (notify : Bool) : List String → Except SweepStop (Store × List String)
  | [] => .ok (store, [])
  | o :: os =>
    match sweep_dests store search notify o (get_destination_airports store o) with
    | .error e => .error e
    | .ok (s1, msgs) =>
      match sweep_origins s1 search notify os with
      | .error e => .error e
      | .ok (s2, msgs2) => .ok (s2, msgs ++ msgs2)

/-- `App._update(send_notifications)`: the bulk sweep.  Returns the final
store and the list of notification messages handed to
`NotificationManager.send_message`. -/
def sweep (store : Store) (search : String → String → Option FlightData)
    (notify : Bool) : Except SweepStop (Store × List String) :=
  sweep_origins store search notify (get_start_locations store)

/-- A proper stored route row: exactly two cells, with a price cell that
`int()` accepts. -/
def rowGoodB (r : Row) : Bool :=
  match r with
  | [_, b] => (int_py b).isSome
  | _ => false

/-- The mapping entry a proper row contributes to `_read_flights`. -/
def entryOf (r : Row) : String × Int :=
  (r.headD "", (int_py (r.getD 1 "")).getD 0)

/-- First cells (destination column) of a sheet's rows. -/
def heads (rows : List Row) : List String :=
  rows.map (fun r => r.headD "")

/-- A well-formed origin group: every stored row is a proper 2-column
destination/price pair and the destinations are pairwise distinct — the
shape every group has when it was built by `update_flight` alone. -/
def groupGood (rows : List Row) : Prop :=
  (∀ r ∈ rows, rowGoodB r = true) ∧ (heads rows).Nodup

instance : DecidablePred groupGood := fun rows =>
  inferInstanceAs (Decidable ((∀ r ∈ rows, rowGoodB r = true) ∧ (heads rows).Nodup))

/-- Distinct sheet titles, as the spreadsheet backend itself enforces. -/
def store_ok (store : Store) : Prop :=
  (store.map Prod.fst).Nodup

instance : DecidablePred store_ok := fun store =>
  inferInstanceAs (Decidable ((store.map Prod.fst).Nodup))

/-! ### Decimal rendering round-trips through the `int()` model -/

lemma digitCh_isDigit (d : Nat) (h : d < 10) : (digitCh d).isDigit = true := by
  interval_cases d <;> decide

lemma digitVal_digitCh (d : Nat) (h : d < 10) : digitVal (digitCh d) = d := by
  interval_cases d <;> decide

lemma digitCh_not_space (d : Nat) (h : d < 10) : isPySpace (digitCh d) = false := by
  interval_cases d <;> decide

lemma digitCh_not_sign (d : Nat) (h : d < 10) :
    ((digitCh d == '-') = false) ∧ ((digitCh d == '+') = false) := by
  interval_cases d <;> decide

lemma natDigitsF_congr : ∀ (fuel fuel' n : Nat), n ≤ fuel → n ≤ fuel' →
    natDigitsF fuel n = natDigitsF fuel' n := by
  intro fuel
  induction fuel with
  | zero =>
    intro fuel' n hn _
    interval_cases n
    cases fuel' with
    | zero => simp [natDigitsF]
    | succ f' => simp [natDigitsF]
  | succ f ih =>
    intro fuel' n hn hn'
    by_cases h10 : n < 10
    · cases fuel' with
      | zero =>
        interval_cases n
        all_goals simp [natDigitsF]
      | succ f' => simp [natDigitsF, h10]
    · cases fuel' with
      | zero => omega
      | succ f' =>
        have hd : n / 10 < n := Nat.div_lt_self (by omega) (by omega)
        rw [natDigitsF, natDigitsF, if_neg h10, if_neg h10,
          ih f' (n / 10) (by omega) (by omega)]

lemma natDigits_unfold (n : Nat) :
    natDigits n = if n < 10 then [digitCh n] else natDigits (n / 10) ++ [digitCh (n % 10)] := by
  rw [natDigits]
  by_cases h10 : n < 10
  · cases hn : n with
    | zero => simp [natDigitsF, h10]
    | succ n' =>
      subst hn
      rw [natDigitsF, if_pos h10, if_pos h10]
  · have hd : n / 10 < n := Nat.div_lt_self (by omega) (by omega)
    cases hn : n with
    | zero => omega
    | succ n' =>
      subst hn
      rw [natDigitsF, if_neg h10, if_neg h10, natDigits,
        natDigitsF_congr n' ((n' + 1) / 10) ((n' + 1) / 10) (by omega) (by omega)]

lemma natDigits_mem (n : Nat) : ∀ c ∈ natDigits n, ∃ d, d < 10 ∧ c = digitCh d := by
  induction n using Nat.strong_induction_on with
  | _ n ih =>
    rw [natDigits_unfold]
    by_cases h : n < 10
    · simp only [h, if_true, List.mem_singleton]
      rintro c rfl
      exact ⟨n, h, rfl⟩
    · simp only [h, if_false, List.mem_append, List.mem_singleton]
      rintro c (hc | rfl)
      · exact ih (n / 10) (Nat.div_lt_self (by omega) (by omega)) c hc
      · exact ⟨n % 10, Nat.mod_lt _ (by omega), rfl⟩

lemma natDigits_ne_nil (n : Nat) : natDigits n ≠ [] := by
  rw [natDigits_unfold]
  by_cases h : n < 10 <;> simp [h]

lemma natDigits_foldl (n : Nat) :
    (natDigits n).foldl (fun a c => 10 * a + digitVal c) 0 = n := by
  induction n using Nat.strong_induction_on with
  | _ n ih =>
    rw [natDigits_unfold]
    by_cases h : n < 10
    · simp [h, List.foldl, digitVal_digitCh n h]
    · have hd := Nat.div_lt_self (show 0 < n by omega) (show 1 < 10 by omega)
      simp only [h, if_false, List.foldl_append, List.foldl_cons, List.foldl_nil,
        ih (n / 10) hd, digitVal_digitCh (n % 10) (Nat.mod_lt _ (by omega))]
      omega

lemma parseNatDigits_natDigits (n : Nat) : parseNatDigits (natDigits n) = some n := by
  have hall : (natDigits n).all Char.isDigit = true := by
    rw [List.all_eq_true]
    intro c hc
    obtain ⟨d, hd, rfl⟩ := natDigits_mem n c hc
    exact digitCh_isDigit d hd
  have hne : (natDigits n).isEmpty = false := by
    cases hcs : natDigits n with
    | nil => exact absurd hcs (natDigits_ne_nil n)
    | cons a l => rfl
  rw [parseNatDigits, hne, hall]
  simp [natDigits_foldl n]

lemma dropWhile_eq_self_of_all {p : Char → Bool} {cs : List Char}
    (h : ∀ c ∈ cs, p c = false) : cs.dropWhile p = cs := by
  cases cs with
  | nil => rfl
  | cons a l => simp [List.dropWhile_cons, h a (by simp)]

lemma pyStrip_eq_self {cs : List Char} (h : ∀ c ∈ cs, isPySpace c = false) :
    pyStrip cs = cs := by
  rw [pyStrip, dropWhile_eq_self_of_all h,
    dropWhile_eq_self_of_all (fun c hc => h c (List.mem_reverse.1 hc)), List.reverse_reverse]

lemma natDigits_no_space (n : Nat) : ∀ c ∈ natDigits n, isPySpace c = false := by
  intro c hc
  obtain ⟨d, hd, rfl⟩ := natDigits_mem n c hc
  exact digitCh_not_space d hd

/-- `int()` undoes the decimal rendering: a price written by the program is
read back as the same integer. -/
theorem int_py_int_repr (i : Int) : int_py (int_repr i) = some i := by
  cases i with
  | ofNat n =>
    show int_py ⟨natDigits n⟩ = some (Int.ofNat n)
    rw [int_py]
    have hstr : pyStrip (String.data ⟨natDigits n⟩) = natDigits n :=
      pyStrip_eq_self (natDigits_no_space n)
    obtain ⟨c, rest, hcons⟩ := List.exists_cons_of_ne_nil (natDigits_ne_nil n)
    rw [hstr, hcons]
    have hc : c ∈ natDigits n := by rw [hcons]; simp
    obtain ⟨d, hd, rfl⟩ := natDigits_mem n c hc
    simp only [(digitCh_not_sign d hd).1, (digitCh_not_sign d hd).2,
      Bool.false_eq_true, if_false, ← hcons, parseNatDigits_natDigits n, Option.map_some']
    simp
  | negSucc n =>
    show int_py ⟨'-' :: natDigits (n + 1)⟩ = some (Int.negSucc n)
    rw [int_py]
    have hstr : pyStrip (String.data ⟨'-' :: natDigits (n + 1)⟩) = '-' :: natDigits (n + 1) := by
      refine pyStrip_eq_self ?_
      intro c hc
      rcases List.mem_cons.1 hc with rfl | hc
      · decide
      · exact natDigits_no_space (n + 1) c hc
    rw [hstr]
    simp only [beq_self_eq_true, if_true, parseNatDigits_natDigits (n + 1), Option.map_some']
    simp [Int.negSucc_eq]

/-! ### Generic list helpers -/

lemma map_self {α : Type} {f : α → α} : ∀ {l : List α}, (∀ x ∈ l, f x = x) → l.map f = l
  | [], _ => rfl
  | x :: t, h => by
    rw [List.map_cons, h x (by simp), map_self (fun y hy => h y (List.mem_cons_of_mem x hy))]

lemma getD_map_lt {α β : Type} (f : α → β) {l : List α} :
    ∀ {i : Nat}, i < l.length → ∀ (d : β) (d' : α), (l.map f).getD i d = f (l.getD i d') := by
  induction l with
  | nil => intro i h; simp at h
  | cons x t ih =>
    intro i h d d'
    cases i with
    | zero => rfl
    | succ j => exact ih (by simpa using h) d d'

lemma getD_set_self {α : Type} {l : List α} {i : Nat} {x : α} (h : i < l.length) (d : α) :
    (l.set i x).getD i d = x := by
  induction l generalizing i with
  | nil => simp at h
  | cons a t ih =>
    cases i with
    | zero => rfl
    | succ j => exact ih (by simpa using h)

lemma set_getD_self {α : Type} {l : List α} :
    ∀ {i : Nat}, i < l.length → ∀ (d : α), l.set i (l.getD i d) = l := by
  induction l with
  | nil => intro i h; simp at h
  | cons a t ih =>
    intro i h d
    cases i with
    | zero => rfl
    | succ j => simpa using ih (by simpa using h) d

lemma getD_append_len {α : Type} (l : List α) (x : α) (d : α) :
    (l ++ [x]).getD l.length d = x := by
  induction l with
  | nil => rfl
  | cons a t ih => simp [ih]

/-! ### Sheet-level helpers -/

lemma check_false_iff {store : Store} {t : String} :
    check_if_sheet_exists store t = false ↔ ∀ s ∈ store, s.1 ≠ t := by
  simp [check_if_sheet_exists, List.any_eq_false]

lemma sheet_rows_of_check_false {store : Store} {t : String}
    (h : check_if_sheet_exists store t = false) : sheet_rows store t = [] := by
  rw [sheet_rows]
  have hf : store.find? (fun s => s.1 == t) = none := by
    rw [List.find?_eq_none]
    intro x hx
    simpa using check_false_iff.1 h x hx
  rw [hf]

lemma check_append_self (store : Store) (t : String) (rs : List Row) :
    check_if_sheet_exists (store ++ [(t, rs)]) t = true := by
  simp [check_if_sheet_exists]

lemma sheet_rows_append_new {store : Store} {t : String} (rs : List Row)
    (h : check_if_sheet_exists store t = false) :
    sheet_rows (store ++ [(t, rs)]) t = rs := by
  rw [sheet_rows, List.find?_append]
  have hf : store.find? (fun s => s.1 == t) = none := by
    rw [List.find?_eq_none]
    intro x hx
    simpa using check_false_iff.1 h x hx
  rw [hf]
  simp

lemma map_fst_append_data (store : Store) (t : String) (rs : List Row) :
    (append_data store t rs).map Prod.fst = store.map Prod.fst := by
  rw [append_data, List.map_map]
  apply List.map_congr_left
  intro s _
  show (if s.1 == t then (s.1, s.2 ++ rs) else s).1 = s.1
  split <;> rfl

lemma map_fst_update_data (store : Store) (t : String) (n : Nat) (v : String) :
    (update_data store t n v).map Prod.fst = store.map Prod.fst := by
  rw [update_data, List.map_map]
  apply List.map_congr_left
  intro s _
  show (if s.1 == t then (s.1, set_cell_B s.2 n v) else s).1 = s.1
  split <;> rfl

lemma check_eq_any_map_fst (store : Store) (t2 : String) :
    check_if_sheet_exists store t2 = (store.map Prod.fst).any (fun a => a == t2) := by
  induction store with
  | nil => rfl
  | cons s ss ih =>
    rw [check_if_sheet_exists, List.map_cons, List.any_cons, List.any_cons]
    rw [check_if_sheet_exists] at ih
    rw [ih]

lemma check_map_fst_eq {store1 store2 : Store} (t2 : String)
    (h : store1.map Prod.fst = store2.map Prod.fst) :
    check_if_sheet_exists store1 t2 = check_if_sheet_exists store2 t2 := by
  rw [check_eq_any_map_fst, check_eq_any_map_fst, h]

lemma check_append_data (store : Store) (t t2 : String) (rs : List Row) :
    check_if_sheet_exists (append_data store t rs) t2 = check_if_sheet_exists store t2 :=
  check_map_fst_eq t2 (map_fst_append_data store t rs)

lemma check_update_data (store : Store) (t t2 : String) (n : Nat) (v : String) :
    check_if_sheet_exists (update_data store t n v) t2 = check_if_sheet_exists store t2 :=
  check_map_fst_eq t2 (map_fst_update_data store t n v)

lemma find?_map_keyed {f : String × List Row → String × List Row}
    (hf : ∀ s, (f s).1 = s.1) (store : Store) (t : String) :
    (store.map f).find? (fun s => s.1 == t) = (store.find? (fun s => s.1 == t)).map f := by
  induction store with
  | nil => rfl
  | cons s ss ih =>
    rw [List.map_cons, List.find?, List.find?]
    have hps : ((f s).1 == t) = (s.1 == t) := by rw [hf s]
    cases hp : (s.1 == t) with
    | true => rw [hps, hp]; rfl
    | false => rw [hps, hp]; exact ih

lemma check_true_find?_some {store : Store} {t : String}
    (h : check_if_sheet_exists store t = true) :
    ∃ s, store.find? (fun s => s.1 == t) = some s ∧ s.1 = t := by
  cases hfind : store.find? (fun s => s.1 == t) with
  | some s => exact ⟨s, rfl, by simpa using List.find?_some hfind⟩
  | none =>
    exfalso
    obtain ⟨x, hx, hpx⟩ := List.any_eq_true.1 h
    exact absurd hpx (by simpa using List.find?_eq_none.1 hfind x hx)

lemma sheet_rows_append_data {store : Store} {t : String} (rs : List Row)
    (h : check_if_sheet_exists store t = true) :
    sheet_rows (append_data store t rs) t = sheet_rows store t ++ rs := by
  have hf : ∀ s : String × List Row, ((if s.1 == t then (s.1, s.2 ++ rs) else s) : String × List Row).1 = s.1 := by
    intro s; split <;> rfl
  obtain ⟨s, hfind, hst⟩ := check_true_find?_some h
  rw [sheet_rows, sheet_rows, append_data, find?_map_keyed hf, hfind]
  simp [hst]

lemma sheet_rows_update_data (store : Store) (t : String) (n : Nat) (v : String) :
    sheet_rows (update_data store t n v) t = set_cell_B (sheet_rows store t) n v := by
  have hf : ∀ s : String × List Row,
      ((if s.1 == t then (s.1, set_cell_B s.2 n v) else s) : String × List Row).1 = s.1 := by
    intro s; split <;> rfl
  rw [sheet_rows, sheet_rows, update_data, find?_map_keyed hf]
  cases hfind : store.find? (fun s => s.1 == t) with
  | none => simp [set_cell_B]
  | some s =>
    have hst : s.1 = t := by simpa using List.find?_some hfind
    simp [hst]

lemma sheet_rows_cons (s : String × List Row) (ss : Store) (t : String) :
    sheet_rows (s :: ss) t = if s.1 == t then s.2 else sheet_rows ss t := by
  rw [sheet_rows, List.find?]
  cases hp : (s.1 == t) with
  | true => simp [hp]
  | false => simp [hp, sheet_rows]

lemma update_data_self {store : Store} {t : String} {n : Nat} {v : String}
    (hok : store_ok store)
    (hrows : set_cell_B (sheet_rows store t) n v = sheet_rows store t) :
    update_data store t n v = store := by
  induction store with
  | nil => rfl
  | cons s ss ih =>
    obtain ⟨hnotin, hnd⟩ := List.nodup_cons.1 hok
    by_cases hs : (s.1 == t) = true
    · have hst : s.1 = t := by simpa using hs
      have hrows' : set_cell_B s.2 n v = s.2 := by
        rw [sheet_rows_cons] at hrows
        simpa [hs] using hrows
      have htail : ss.map (fun x => if x.1 == t then (x.1, set_cell_B x.2 n v) else x) = ss := by
        apply map_self
        intro x hx
        have hxt : (x.1 == t) = false := by
          rw [beq_eq_false_iff_ne]
          intro hx1
          exact hnotin (by rw [← hst] at hx1; exact hx1 ▸ List.mem_map_of_mem Prod.fst hx)
        simp [hxt]
      have hhead : (if s.1 == t then (s.1, set_cell_B s.2 n v) else s) = s := by
        simp [hs, hrows']
      rw [update_data, List.map_cons, hhead, htail]
    · have hsf : (s.1 == t) = false := by simpa using hs
      have hrows' : set_cell_B (sheet_rows ss t) n v = sheet_rows ss t := by
        rw [sheet_rows_cons] at hrows
        simpa [hsf] using hrows
      have hhead : (if s.1 == t then (s.1, set_cell_B s.2 n v) else s) = s := by
        simp [hsf]
      have htail : ss.map (fun x => if x.1 == t then (x.1, set_cell_B x.2 n v) else x) = ss := by
        simpa [update_data] using ih hnd hrows'
      rw [update_data, List.map_cons, hhead, htail]

/-! ### Reading a group -/

lemma dict_insert_fresh {m : List (String × Int)} {k : String} {v : Int}
    (h : k ∉ m.map Prod.fst) : dict_insert m k v = m ++ [(k, v)] := by
  have hany : m.any (fun e => e.1 == k) = false := by
    rw [List.any_eq_false]
    intro e he
    rw [Bool.not_eq_true, beq_eq_false_iff_ne]
    intro hk
    exact h (hk ▸ List.mem_map_of_mem Prod.fst he)
  rw [dict_insert, hany]
  simp

lemma build_flights_append (rs2 : List Row) :
    ∀ (rs1 : List Row) (acc : List (String × Int)),
      build_flights (rs1 ++ rs2) acc
        = (build_flights rs1 acc).bind (fun m => build_flights rs2 m) := by
  intro rs1
  induction rs1 with
  | nil => intro acc; rfl
  | cons r t ih =>
    intro acc
    rcases r with _ | ⟨a, _ | ⟨b, _ | ⟨c, t3⟩⟩⟩
    · simpa [build_flights] using ih acc
    · simpa [build_flights] using ih acc
    · cases hv : int_py b with
      | some v =>
        simp only [List.cons_append, build_flights, hv]
        exact ih _
      | none =>
        simp only [List.cons_append, build_flights, hv]
        rfl
    · simpa [build_flights] using ih acc

lemma map_fst_entryOf (rows : List Row) : (rows.map entryOf).map Prod.fst = heads rows := by
  rw [heads, List.map_map]
  rfl

lemma build_flights_good : ∀ (rows : List Row) (acc : List (String × Int)),
    (∀ r ∈ rows, rowGoodB r = true) →
    (acc.map Prod.fst ++ heads rows).Nodup →
    build_flights rows acc = .ok (acc ++ rows.map entryOf) := by
  intro rows
  induction rows with
  | nil => intro acc _ _; simp [build_flights]
  | cons r t ih =>
    intro acc hg hnd
    have hr := hg r (List.mem_cons_self r t)
    rcases r with _ | ⟨a, _ | ⟨b, _ | ⟨c, t3⟩⟩⟩ <;> simp only [rowGoodB] at hr
    · exact absurd hr (by simp)
    · exact absurd hr (by simp)
    case cons.cons.cons.nil =>
      obtain ⟨v, hv⟩ := Option.isSome_iff_exists.1 hr
      have hnd2 : (acc.map Prod.fst ++ (a :: heads t)).Nodup := by
        simpa [heads] using hnd
      have hins : dict_insert acc a v = acc ++ [(a, v)] := by
        apply dict_insert_fresh
        obtain ⟨h1, h2, hdisj⟩ := List.nodup_append.1 hnd2
        intro hmem
        exact hdisj hmem (List.mem_cons_self a _)
      have hg' : ∀ r ∈ t, rowGoodB r = true := fun r hrt => hg r (List.mem_cons_of_mem _ hrt)
      have hnd' : ((acc ++ [(a, v)]).map Prod.fst ++ heads t).Nodup := by
        simp only [List.map_append]
        have : acc.map Prod.fst ++ (a :: heads t)
            = (acc.map Prod.fst ++ [(a, v)].map Prod.fst) ++ heads t := by
          simp
        exact this ▸ hnd2
      simp only [build_flights, hv, hins]
      rw [ih (acc ++ [(a, v)]) hg' hnd']
      have hent : entryOf [a, b] = (a, v) := by simp [entryOf, hv]
      simp [hent]
    · exact absurd hr (by simp)

lemma read_flights_good {store : Store} {o : String}
    (hg : groupGood (sheet_rows store (prepare_sheet_id o))) :
    read_flights store o = .ok ((sheet_rows store (prepare_sheet_id o)).map entryOf) := by
  rw [read_flights]
  have := build_flights_good (sheet_rows store (prepare_sheet_id o)) [] hg.1 (by simpa using hg.2)
  simpa using this

lemma build_flights_filter_len2 : ∀ (rows : List Row) (acc : List (String × Int)),
    build_flights rows acc
      = build_flights (rows.filter (fun r => r.length == 2)) acc := by
  intro rows
  induction rows with
  | nil => intro acc; rfl
  | cons r t ih =>
    intro acc
    rcases r with _ | ⟨a, _ | ⟨b, _ | ⟨c, t3⟩⟩⟩
    · simpa [build_flights, List.filter_cons] using ih acc
    · simpa [build_flights, List.filter_cons] using ih acc
    · have hlen : (([a, b] : Row).length == 2) = true := rfl
      cases hv : int_py b with
      | some v =>
        simp only [build_flights, hv, List.filter_cons, hlen, if_true, cond_true]
        exact ih _
      | none => simp [build_flights, hv, List.filter_cons, hlen]
    · have hlen : ((a :: b :: c :: t3 : Row).length == 2) = false := by
        simp only [List.length_cons, beq_eq_false_iff_ne]
        omega
      simpa [build_flights, List.filter_cons, hlen] using ih acc

/-! ### The scan rank and the positional write -/

lemma find_row_number_eq (m : List (String × Int)) (d : String) :
    find_row_number m d = (m.findIdx? (fun e => e.1 == d)).map (fun i => i + 1) := by
  induction m with
  | nil => rfl
  | cons e t ih =>
    rw [find_row_number]
    cases hp : (e.1 == d) with
    | true => simp [List.findIdx?_cons, hp]
    | false =>
      simp only [hp, Bool.false_eq_true, if_false, List.findIdx?_cons,
        List.findIdx?_start_succ, ih, Option.map_map]

lemma entryOf_price (a : String) (p : Int) : entryOf [a, int_repr p] = (a, p) := by
  simp [entryOf, int_py_int_repr]

lemma rowGoodB_price (a : String) (p : Int) : rowGoodB [a, int_repr p] = true := by
  simp [rowGoodB, int_py_int_repr]

lemma rank_spec {d : String} :
    ∀ (rows : List Row) (rn : Nat),
      (∀ r ∈ rows, rowGoodB r = true) →
      find_row_number (rows.map entryOf) d = some rn →
      ∃ i b, rn = i + 1 ∧ i < rows.length ∧ rows.getD i [] = [d, b] ∧
        ∀ j, j < i → ((rows.map entryOf).getD j ("", 0)).1 ≠ d := by
  intro rows
  induction rows with
  | nil => intro rn _ h; simp [find_row_number] at h
  | cons r t ih =>
    intro rn hg hfind
    have hr := hg r (List.mem_cons_self r t)
    rcases r with _ | ⟨a, _ | ⟨b0, _ | ⟨c, t3⟩⟩⟩ <;> simp only [rowGoodB] at hr
    · exact absurd hr (by simp)
    · exact absurd hr (by simp)
    case cons.cons.cons.nil =>
      rw [List.map_cons, find_row_number] at hfind
      by_cases ha : ((entryOf [a, b0]).1 == d) = true
      · rw [if_pos ha] at hfind
        have hrn : rn = 1 := by
          have := Option.some.inj hfind
          omega
        have had : a = d := by simpa [entryOf] using ha
        subst had hrn
        exact ⟨0, b0, rfl, by simp, rfl, fun j hj => absurd hj (by omega)⟩
      · rw [if_neg ha] at hfind
        obtain ⟨n, hn, hrn⟩ : ∃ n, find_row_number (t.map entryOf) d = some n ∧ rn = n + 1 := by
          cases hfr : find_row_number (t.map entryOf) d with
          | none => rw [hfr] at hfind; simp at hfind
          | some n =>
            rw [hfr] at hfind
            simp only [Option.map_some'] at hfind
            exact ⟨n, rfl, (Option.some.inj hfind).symm⟩
        obtain ⟨i, b', hin, hlt, hrow, hbefore⟩ :=
          ih n (fun r hr2 => hg r (List.mem_cons_of_mem _ hr2)) hn
        refine ⟨i + 1, b', by omega, by simp only [List.length_cons]; omega, by simpa using hrow, ?_⟩
        intro j hj
        cases j with
        | zero =>
          have : a ≠ d := by simpa [entryOf] using ha
          simpa [entryOf] using this
        | succ j' =>
          have := hbefore j' (by omega)
          simpa using this
    · exact absurd hr (by simp)

lemma dict_get_set_first {d : String} {p : Int} :
    ∀ (m : List (String × Int)) (i : Nat), i < m.length →
      (∀ j, j < i → (m.getD j ("", 0)).1 ≠ d) →
      dict_get (m.set i (d, p)) d = some p := by
  intro m
  induction m with
  | nil => intro i h; simp at h
  | cons e t ih =>
    intro i hlen hbef
    cases i with
    | zero => simp [dict_get, List.find?]
    | succ j =>
      have he : (e.1 == d) = false := by
        rw [beq_eq_false_iff_ne]
        exact hbef 0 (by omega)
      have htail := ih j (by simpa using hlen)
        (fun j' hj' => by simpa using hbef (j' + 1) (by omega))
      show dict_get (e :: t.set j (d, p)) d = some p
      rw [dict_get, List.find?, he]
      exact htail

/-! ### Unfolding the reconciliation paths -/

lemma update_flight_new_origin (b : Backend) {store : Store} {o : String} (d : String) (p : Int)
    (hcheck : check_if_sheet_exists store (prepare_sheet_id o) = false) :
    update_flight b store o d p = .ok (add_flight b store o d p) := by
  rw [update_flight]
  simp only [hcheck, Bool.not_false, if_true]

lemma update_flight_no_match (b : Backend) {store : Store} {o d : String} (p : Int)
    {m : List (String × Int)}
    (hcheck : check_if_sheet_exists store (prepare_sheet_id o) = true)
    (hread : read_flights store o = .ok m)
    (hfind : find_row_number m d = none) :
    update_flight b store o d p = .ok (add_flight b store o d p) := by
  rw [update_flight]
  simp only [hcheck, Bool.not_true, Bool.false_eq_true, if_false, hread, hfind]

lemma update_flight_matched (b : Backend) {store : Store} {o d : String} (p : Int)
    {m : List (String × Int)} {rn : Nat}
    (hb : b.updateOk = true)
    (hcheck : check_if_sheet_exists store (prepare_sheet_id o) = true)
    (hread : read_flights store o = .ok m)
    (hfind : find_row_number m d = some rn) :
    update_flight b store o d p
      = .ok (update_data store (prepare_sheet_id o) rn (int_repr p)) := by
  rw [update_flight]
  simp only [hcheck, Bool.not_true, Bool.false_eq_true, if_false, hread, hfind, hb, if_true]

lemma update_flight_matched_fail (b : Backend) {store : Store} {o d : String} (p : Int)
    {m : List (String × Int)} {rn : Nat}
    (hb : b.updateOk = false)
    (hcheck : check_if_sheet_exists store (prepare_sheet_id o) = true)
    (hread : read_flights store o = .ok m)
    (hfind : find_row_number m d = some rn) :
    update_flight b store o d p = .error .notUpdated := by
  rw [update_flight]
  simp only [hcheck, Bool.not_true, Bool.false_eq_true, if_false, hread, hfind, hb]

lemma append_data_append_new {store : Store} {t : String} (rows0 : List Row) (rs : List Row)
    (h : check_if_sheet_exists store t = false) :
    append_data (store ++ [(t, rows0)]) t rs = store ++ [(t, rows0 ++ rs)] := by
  rw [append_data, List.map_append]
  have h1 : store.map (fun s => if s.1 == t then (s.1, s.2 ++ rs) else s) = store := by
    apply map_self
    intro x hx
    have hxt : (x.1 == t) = false := by
      rw [beq_eq_false_iff_ne]
      exact check_false_iff.1 h x hx
    simp [hxt]
  rw [h1]
  simp

lemma add_flight_new {b : Backend} (hbc : b.createOk = true) (hba : b.appendOk = true)
    {store : Store} {o : String} (d : String) (p : Int)
    (hcheck : check_if_sheet_exists store (prepare_sheet_id o) = false) :
    add_flight b store o d p = store ++ [(prepare_sheet_id o, [[d, int_repr p]])] := by
  rw [add_flight]
  simp only [hcheck, Bool.false_eq_true, if_false, hbc, if_true, create_sheet, hba,
    check_append_self, Bool.and_self]
  rw [append_data_append_new [] [[d, int_repr p]] hcheck]
  rfl

lemma add_flight_existing {b : Backend} (hba : b.appendOk = true)
    {store : Store} {o : String} (d : String) (p : Int)
    (hcheck : check_if_sheet_exists store (prepare_sheet_id o) = true) :
    add_flight b store o d p = append_data store (prepare_sheet_id o) [[d, int_repr p]] := by
  rw [add_flight]
  simp only [hcheck, if_true, hba, Bool.and_self]

lemma add_flight_existing_append_fail {b : Backend} (hba : b.appendOk = false)
    {store : Store} {o : String} (d : String) (p : Int)
    (hcheck : check_if_sheet_exists store (prepare_sheet_id o) = true) :
    add_flight b store o d p = store := by
  rw [add_flight]
  simp only [hcheck, if_true, hba, Bool.false_and, Bool.false_eq_true, if_false]

lemma add_flight_new_append_fail {b : Backend} (hbc : b.createOk = true) (hba : b.appendOk = false)
    {store : Store} {o : String} (d : String) (p : Int)
    (hcheck : check_if_sheet_exists store (prepare_sheet_id o) = false) :
    add_flight b store o d p = store ++ [(prepare_sheet_id o, [])] := by
  rw [add_flight]
  simp only [hcheck, Bool.false_eq_true, if_false, hbc, if_true, create_sheet, hba,
    Bool.false_and]

lemma find_row_number_none_iff (m : List (String × Int)) (d : String) :
    find_row_number m d = none ↔ ∀ e ∈ m, (e.1 == d) = false := by
  induction m with
  | nil => simp [find_row_number]
  | cons e t ih =>
    rw [find_row_number]
    cases hp : (e.1 == d) with
    | true =>
      simp only [if_true]
      constructor
      · intro h; exact absurd h (by simp)
      · intro h; exact absurd hp (by simpa using h e (List.mem_cons_self e t))
    | false =>
      rw [if_neg (by simp : ¬(false = true)), Option.map_eq_none', ih]
      constructor
      · intro h x hx
        rcases List.mem_cons.1 hx with rfl | hx'
        · exact hp
        · exact h x hx'
      · intro h x hx
        exact h x (List.mem_cons_of_mem e hx)

lemma dict_get_some_mem {m : List (String × Int)} {d : String} {p0 : Int}
    (h : dict_get m d = some p0) : ∃ e ∈ m, e.1 = d := by
  rw [dict_get, Option.map_eq_some'] at h
  obtain ⟨e, he, _⟩ := h
  exact ⟨e, List.mem_of_find?_eq_some he, by simpa using List.find?_some he⟩

/-! ### Effect of a positional overwrite on a well-formed group -/

lemma overwrite_good {store : Store} {o d : String} (p : Int) {rn : Nat}
    (hg : groupGood (sheet_rows store (prepare_sheet_id o)))
    (hfind : find_row_number ((sheet_rows store (prepare_sheet_id o)).map entryOf) d
      = some rn) :
    ∃ i, rn = i + 1 ∧ i < (sheet_rows store (prepare_sheet_id o)).length ∧
      sheet_rows (update_data store (prepare_sheet_id o) rn (int_repr p)) (prepare_sheet_id o)
        = (sheet_rows store (prepare_sheet_id o)).set i [d, int_repr p] ∧
      groupGood ((sheet_rows store (prepare_sheet_id o)).set i [d, int_repr p]) ∧
      heads ((sheet_rows store (prepare_sheet_id o)).set i [d, int_repr p])
        = heads (sheet_rows store (prepare_sheet_id o)) ∧
      dict_get (((sheet_rows store (prepare_sheet_id o)).set i [d, int_repr p]).map entryOf) d
        = some p := by
  obtain ⟨i, b0, hrn, hlt, hrow, hbef⟩ := rank_spec _ rn hg.1 hfind
  subst hrn
  have hA : set_cell_B (sheet_rows store (prepare_sheet_id o)) (i + 1) (int_repr p)
      = (sheet_rows store (prepare_sheet_id o)).set i [d, int_repr p] := by
    rw [set_cell_B, Nat.add_sub_cancel, hrow]
    rfl
  have hB : sheet_rows (update_data store (prepare_sheet_id o) (i + 1) (int_repr p))
      (prepare_sheet_id o)
      = (sheet_rows store (prepare_sheet_id o)).set i [d, int_repr p] := by
    rw [sheet_rows_update_data, hA]
  have hC : heads ((sheet_rows store (prepare_sheet_id o)).set i [d, int_repr p])
      = heads (sheet_rows store (prepare_sheet_id o)) := by
    rw [heads, List.map_set]
    have hkey : ((sheet_rows store (prepare_sheet_id o)).map
        (fun r => r.headD "")).getD i "" = d := by
      rw [getD_map_lt _ hlt "" [], hrow]
      rfl
    calc ((sheet_rows store (prepare_sheet_id o)).map (fun r => r.headD "")).set i
            (([d, int_repr p] : Row).headD "")
        = ((sheet_rows store (prepare_sheet_id o)).map (fun r => r.headD "")).set i
            (((sheet_rows store (prepare_sheet_id o)).map (fun r => r.headD "")).getD i "") := by
          rw [hkey]; rfl
      _ = (sheet_rows store (prepare_sheet_id o)).map (fun r => r.headD "") :=
          set_getD_self (by simpa using hlt) ""
  have hD : groupGood ((sheet_rows store (prepare_sheet_id o)).set i [d, int_repr p]) := by
    constructor
    · intro r hr
      rcases List.mem_or_eq_of_mem_set hr with hr' | rfl
      · exact hg.1 r hr'
      · exact rowGoodB_price d p
    · rw [hC]; exact hg.2
  have hE : ((sheet_rows store (prepare_sheet_id o)).set i [d, int_repr p]).map entryOf
      = ((sheet_rows store (prepare_sheet_id o)).map entryOf).set i (d, p) := by
    rw [List.map_set, entryOf_price]
  have hF : dict_get (((sheet_rows store (prepare_sheet_id o)).set i [d, int_repr p]).map
      entryOf) d = some p := by
    rw [hE]
    exact dict_get_set_first _ i (by simpa using hlt) hbef
  exact ⟨i, rfl, hlt, hB, hD, hC, hF⟩

lemma find_row_number_keys {d : String} :
    ∀ (m1 m2 : List (String × Int)), m1.map Prod.fst = m2.map Prod.fst →
      find_row_number m1 d = find_row_number m2 d := by
  intro m1
  induction m1 with
  | nil =>
    intro m2 h
    have : m2 = [] := List.map_eq_nil_iff.1 h.symm
    subst this
    rfl
  | cons e1 t1 ih =>
    intro m2 h
    cases m2 with
    | nil => exact absurd h (by simp)
    | cons e2 t2 =>
      simp only [List.map_cons, List.cons.injEq] at h
      rw [find_row_number, find_row_number, h.1]
      cases hp : (e2.1 == d) with
      | true => rfl
      | false => rw [ih t2 h.2]

lemma find_row_number_append_last {m : List (String × Int)} {d : String} (p : Int)
    (h : ∀ e ∈ m, (e.1 == d) = false) :
    find_row_number (m ++ [(d, p)]) d = some (m.length + 1) := by
  induction m with
  | nil => simp [find_row_number]
  | cons e t ih =>
    rw [List.cons_append, find_row_number, h e (List.mem_cons_self e t),
      ih (fun e' he' => h e' (List.mem_cons_of_mem e he'))]
    simp only [if_neg (by simp : ¬(false = true)), Option.map_some', List.length_cons]

/-! ### Sweep helpers -/

lemma sweep_dests_none {store : Store} {search : String → String → Option FlightData}
    {notify : Bool} {o : String} (h : ∀ d, search o d = none) :
    ∀ ds, sweep_dests store search notify o ds = .ok (store, []) := by
  intro ds
  induction ds with
  | nil => rfl
  | cons d ds ih => simp [sweep_dests, h d, sweep_pair, ih]

lemma sweep_origins_none {search : String → String → Option FlightData}
    (hnone : ∀ o d, search o d = none) :
    ∀ (os : List String) (store : Store) (notify : Bool),
      sweep_origins store search notify os = .ok (store, []) := by
  intro os
  induction os with
  | nil => intro store notify; rfl
  | cons o os ih =>
    intro store notify
    simp [sweep_origins, sweep_dests_none (hnone o), ih store notify]

/-! ### Claim theorems -/

/-- C9: `read_group` returns an empty mapping when the origin group does not
exist, and rows that are not exactly 2-column destination/price pairs never
affect the result — the mapping is computed from the 2-column rows alone, so
malformed rows are silently excluded and never raise. -/
theorem C9_read_group_tolerance :
    (∀ (store : Store) (o : String),
        check_if_sheet_exists store (prepare_sheet_id o) = false →
        read_flights store o = .ok []) ∧
    (∀ (store : Store) (o : String),
        read_flights store o
          = build_flights ((sheet_rows store (prepare_sheet_id o)).filter
              (fun r => r.length == 2)) []) := by
  constructor
  · intro store o hc
    rw [read_flights, sheet_rows_of_check_false hc]
    rfl
  · intro store o
    rw [read_flights]
    exact build_flights_filter_len2 _ []

/-- C9 witness: a missing group reads as the empty mapping (through the
theorem), and in a concrete group the 1-column row `[WAW]` and the 3-column
row `[X, 1, 2]` are skipped without error. -/
theorem C9_witness :
    read_flights [] "GDA" = .ok [] ∧
    read_flights [("FROM_GDA", [["WAW"], ["BER", "46522"], ["X", "1", "2"]])] "GDA"
      = .ok [("BER", 46522)] :=
  ⟨C9_read_group_tolerance.1 [] "GDA" rfl, rfl⟩

/-- C10: `_read_flights` coerces the price cell with `int()`, so the
malformed-row tolerance covers only rows whose column count differs from 2:
a 1-column row is skipped silently, but a 2-column row whose price cell is
not an integer literal raises instead of being skipped. -/
theorem C10_int_coercion_raises :
    read_flights [("FROM_GDA", [["WAW"]])] "GDA" = .ok [] ∧
    read_flights [("FROM_GDA", [["WAW"], ["BER", "abc"], ["MUC", "100"]])] "GDA"
      = .error .intParse :=
  ⟨rfl, rfl⟩

/-- C3: for an origin with no group yet, `update_flight` creates the group
and appends the single entry: afterwards the group exists and reads as
exactly `[(d, p)]`. -/
theorem C3_new_origin (store : Store) (o d : String) (p : Int)
    (hcheck : check_if_sheet_exists store (prepare_sheet_id o) = false) :
    update_flight allOk store o d p
      = .ok (store ++ [(prepare_sheet_id o, [[d, int_repr p]])]) ∧
    check_if_sheet_exists (store ++ [(prepare_sheet_id o, [[d, int_repr p]])])
      (prepare_sheet_id o) = true ∧
    read_flights (store ++ [(prepare_sheet_id o, [[d, int_repr p]])]) o = .ok [(d, p)] := by
  refine ⟨?_, check_append_self _ _ _, ?_⟩
  · rw [update_flight_new_origin allOk d p hcheck, add_flight_new rfl rfl d p hcheck]
  · rw [read_flights, sheet_rows_append_new _ hcheck]
    simp [build_flights, int_py_int_repr, dict_insert]

/-- C3 witness: end-to-end scenario 1, on the empty store. -/
theorem C3_witness :
    update_flight allOk [] "GDA" "WAW" 21650
      = .ok [("FROM_GDA", [["WAW", "21650"]])] ∧
    check_if_sheet_exists [("FROM_GDA", [["WAW", "21650"]])] (prepare_sheet_id "GDA") = true ∧
    read_flights [("FROM_GDA", [["WAW", "21650"]])] "GDA" = .ok [("WAW", 21650)] :=
  C3_new_origin [] "GDA" "WAW" 21650 rfl

/-- C4: for an existing origin group and a destination not yet present,
`update_flight` appends the new entry as a new last row and the read mapping
becomes the old mapping with `(d, p)` appended — no existing entry's price
or position changes. -/
theorem C4_novel_destination (store : Store) (o d : String) (p : Int)
    (m : List (String × Int))
    (hcheck : check_if_sheet_exists store (prepare_sheet_id o) = true)
    (hread : read_flights store o = .ok m)
    (hfresh : d ∉ m.map Prod.fst) :
    update_flight allOk store o d p
      = .ok (append_data store (prepare_sheet_id o) [[d, int_repr p]]) ∧
    read_flights (append_data store (prepare_sheet_id o) [[d, int_repr p]]) o
      = .ok (m ++ [(d, p)]) := by
  have hfind : find_row_number m d = none := by
    rw [find_row_number_none_iff]
    intro e he
    rw [beq_eq_false_iff_ne]
    exact fun hk => hfresh (hk ▸ List.mem_map_of_mem Prod.fst he)
  constructor
  · rw [update_flight_no_match allOk p hcheck hread hfind, add_flight_existing rfl d p hcheck]
  · rw [read_flights, sheet_rows_append_data _ hcheck, build_flights_append]
    rw [read_flights] at hread
    rw [hread]
    show build_flights [[d, int_repr p]] m = .ok (m ++ [(d, p)])
    simp [build_flights, int_py_int_repr, dict_insert_fresh hfresh]

/-- C4 witness: end-to-end scenario 2, adding `BER` to a group holding only
`WAW`. -/
theorem C4_witness :
    update_flight allOk [("FROM_GDA", [["WAW", "21650"]])] "GDA" "BER" 46522
      = .ok (append_data [("FROM_GDA", [["WAW", "21650"]])] (prepare_sheet_id "GDA")
          [["BER", int_repr 46522]]) ∧
    read_flights (append_data [("FROM_GDA", [["WAW", "21650"]])] (prepare_sheet_id "GDA")
        [["BER", int_repr 46522]]) "GDA"
      = .ok ([("WAW", 21650)] ++ [("BER", 46522)]) :=
  C4_novel_destination [("FROM_GDA", [["WAW", "21650"]])] "GDA" "BER" 46522
    [("WAW", 21650)] (by decide) rfl (by decide)

/-- C2: the overwrite targets cell B of the physical row whose 1-based
position equals the destination's rank among the group's entries in stored
order (first match wins); in particular, on `[WAW: 21650, BER: 46522]`,
reconciling `WAW` to 19999 overwrites position 1 and leaves position 2
untouched. -/
theorem C2_positional_target :
    (∀ (store : Store) (o d : String) (p : Int) (m : List (String × Int)) (nr : Nat),
        check_if_sheet_exists store (prepare_sheet_id o) = true →
        read_flights store o = .ok m →
        m.findIdx? (fun e => e.1 == d) = some nr →
        update_flight allOk store o d p
          = .ok (update_data store (prepare_sheet_id o) (nr + 1) (int_repr p))) ∧
    (update_flight allOk [("FROM_GDA", [["WAW", "21650"], ["BER", "46522"]])] "GDA" "WAW" 19999
        = .ok [("FROM_GDA", [["WAW", "19999"], ["BER", "46522"]])] ∧
      read_flights [("FROM_GDA", [["WAW", "19999"], ["BER", "46522"]])] "GDA"
        = .ok [("WAW", 19999), ("BER", 46522)]) := by
  constructor
  · intro store o d p m nr hcheck hread hidx
    refine update_flight_matched allOk p rfl hcheck hread ?_
    rw [find_row_number_eq, hidx]
    rfl
  · exact ⟨rfl, rfl⟩

/-- C2 witness: the general positional statement applied to the concrete
scenario-3 store, with the rank of `WAW` being 1. -/
theorem C2_witness :
    update_flight allOk [("FROM_GDA", [["WAW", "21650"], ["BER", "46522"]])] "GDA" "WAW" 19999
      = .ok (update_data [("FROM_GDA", [["WAW", "21650"], ["BER", "46522"]])]
          (prepare_sheet_id "GDA") (0 + 1) (int_repr 19999)) :=
  C2_positional_target.1 [("FROM_GDA", [["WAW", "21650"], ["BER", "46522"]])] "GDA" "WAW"
    19999 [("WAW", 21650), ("BER", 46522)] 0 (by decide) rfl (by decide)

/-- C7: during a sweep, every pair for which the search collaborator returns
no quote is skipped: nothing is written, nothing is sent, nothing is raised,
and when no pair has a quote the sweep ends with the store unchanged and an
empty notification list. -/
theorem C7_no_quote_skips (store : Store) (search : String → String → Option FlightData)
    (hnone : ∀ o d, search o d = none) :
    sweep store search true = .ok (store, []) := by
  rw [sweep]
  exact sweep_origins_none hnone _ store true

/-- C7 witness: end-to-end scenario 4 — a one-pair store swept with a search
collaborator that finds no itinerary. -/
theorem C7_witness :
    sweep [("FROM_GDA", [["WAW", "21650"]])] (fun _ _ => none) true
      = .ok ([("FROM_GDA", [["WAW", "21650"]])], []) :=
  C7_no_quote_skips [("FROM_GDA", [["WAW", "21650"]])] (fun _ _ => none) (fun _ _ => rfl)

/-- C6: on the store with the single pair `GDA -> WAW` and a search
collaborator that does return a quote, the sweep of `App._update` with
notifications enabled aborts with a `TypeError` — `update_flight` is called
with one `FlightData` argument against the signature
`(start, dest, price)` — so the notification collaborator is never invoked. -/
theorem C6_sweep_crashes_before_notifying :
    sweep [("FROM_GDA", [["WAW", "21650"]])]
      (fun o d => some { origin_airport := o, destination_airport := d, price := 19999 }) true
      = .error .typeError := rfl

/-- C5 counterexample: with an append failure reported by the store on the
create path (new origin), `update_flight` returns normally — the sheet was
created but nothing was appended and no exception reaches the caller, against
the claim that a store failure surfaces as an exception on both paths. -/
theorem C5_counterexample :
    update_flight ⟨true, false, true⟩ [] "GDA" "WAW" 21650 = .ok [("FROM_GDA", [])] := rfl

/-- C5 (amended): `update_flight` raises `ValueError` exactly on the update
(existing-entry overwrite) path when the store reports failure; on the
create/append path — new origin or novel destination — a store failure is
only logged and the caller gets no exception. -/
theorem C5_failure_surfacing :
    (∀ (store : Store) (o d : String) (p : Int) (m : List (String × Int)) (rn : Nat),
        check_if_sheet_exists store (prepare_sheet_id o) = true →
        read_flights store o = .ok m →
        find_row_number m d = some rn →
        update_flight ⟨true, true, false⟩ store o d p = .error .notUpdated) ∧
    (∀ (store : Store) (o d : String) (p : Int),
        check_if_sheet_exists store (prepare_sheet_id o) = false →
        update_flight ⟨true, false, true⟩ store o d p
          = .ok (store ++ [(prepare_sheet_id o, [])])) ∧
    (∀ (store : Store) (o d : String) (p : Int) (m : List (String × Int)),
        check_if_sheet_exists store (prepare_sheet_id o) = true →
        read_flights store o = .ok m →
        d ∉ m.map Prod.fst →
        update_flight ⟨true, false, true⟩ store o d p = .ok store) := by
  refine ⟨?_, ?_, ?_⟩
  · intro store o d p m rn hcheck hread hfind
    exact update_flight_matched_fail _ p rfl hcheck hread hfind
  · intro store o d p hcheck
    rw [update_flight_new_origin _ d p hcheck, add_flight_new_append_fail rfl rfl d p hcheck]
  · intro store o d p m hcheck hread hfresh
    have hfind : find_row_number m d = none := by
      rw [find_row_number_none_iff]
      intro e he
      rw [beq_eq_false_iff_ne]
      exact fun hk => hfresh (hk ▸ List.mem_map_of_mem Prod.fst he)
    rw [update_flight_no_match _ p hcheck hread hfind,
      add_flight_existing_append_fail rfl d p hcheck]

/-- C5 witness: the three paths at concrete inputs — a failing overwrite
raises, a failing append for a new origin or a novel destination does not. -/
theorem C5_witness :
    update_flight ⟨true, true, false⟩ [("FROM_GDA", [["WAW", "21650"]])] "GDA" "WAW" 19999
      = .error .notUpdated ∧
    update_flight ⟨true, false, true⟩ [] "GDA" "WAW" 21650
      = .ok ([] ++ [(prepare_sheet_id "GDA", [])]) ∧
    update_flight ⟨true, false, true⟩ [("FROM_GDA", [["WAW", "21650"]])] "GDA" "BER" 46522
      = .ok [("FROM_GDA", [["WAW", "21650"]])] :=
  ⟨C5_failure_surfacing.1 [("FROM_GDA", [["WAW", "21650"]])] "GDA" "WAW" 19999
      [("WAW", 21650)] 1 (by decide) rfl (by decide),
    C5_failure_surfacing.2.1 [] "GDA" "WAW" 21650 (by decide),
    C5_failure_surfacing.2.2 [("FROM_GDA", [["WAW", "21650"]])] "GDA" "BER" 46522
      [("WAW", 21650)] (by decide) rfl (by decide)⟩

/-- C1 counterexample: in a group whose first stored row is malformed
(`[X]`, one column), the destination `WAW` holds price 100 and has rank 1 in
the read mapping, so the overwrite lands on physical row 1 — the malformed
row — and after `reconcile(GDA, WAW, 19999)` the group still reads
`WAW -> 100`, not 19999. -/
theorem C1_counterexample :
    update_flight allOk [("FROM_GDA", [["X"], ["WAW", "100"]])] "GDA" "WAW" 19999
      = .ok [("FROM_GDA", [["X", "19999"], ["WAW", "100"]])] ∧
    read_flights [("FROM_GDA", [["X", "19999"], ["WAW", "100"]])] "GDA"
      = .ok [("X", 19999), ("WAW", 100)] ∧
    dict_get [("X", 19999), ("WAW", 100)] "WAW" = some 100 ∧
    ((100 : Int) = 19999 → False) :=
  ⟨rfl, rfl, rfl, by decide⟩

/-- C1 (amended): for every origin whose group is well-formed — every stored
row an exactly-2-column pair with an `int()`-parseable price and pairwise
distinct destinations, the shape `update_flight` itself maintains — and
every destination `d` stored with some price `p0`, `reconcile(o, d, p1)`
succeeds and leaves `read_group(o)[d] = p1` for every `p1`, larger, smaller
or equal: the engine overwrites unconditionally and never compares against
the stored price. -/
theorem C1_overwrite_always (store : Store) (o d : String) (p0 p1 : Int)
    (m : List (String × Int))
    (hg : groupGood (sheet_rows store (prepare_sheet_id o)))
    (hread : read_flights store o = .ok m)
    (hget : dict_get m d = some p0) :
    ∃ store1, update_flight allOk store o d p1 = .ok store1 ∧
      ∃ m1, read_flights store1 o = .ok m1 ∧ dict_get m1 d = some p1 := by
  have hm : m = (sheet_rows store (prepare_sheet_id o)).map entryOf := by
    have h2 := read_flights_good hg
    rw [hread] at h2
    exact Except.ok.inj h2
  have hcheck : check_if_sheet_exists store (prepare_sheet_id o) = true := by
    by_contra hc
    have hc' : check_if_sheet_exists store (prepare_sheet_id o) = false := by
      simpa using hc
    obtain ⟨e, he, _⟩ := dict_get_some_mem hget
    rw [hm, sheet_rows_of_check_false hc'] at he
    simp at he
  obtain ⟨e, he, hed⟩ := dict_get_some_mem hget
  obtain ⟨rn, hfind⟩ : ∃ rn, find_row_number m d = some rn := by
    cases hf : find_row_number m d with
    | none =>
      have := (find_row_number_none_iff m d).1 hf e he
      rw [hed] at this
      simp at this
    | some rn => exact ⟨rn, rfl⟩
  obtain ⟨i, hrn, hlt, hsheet, hgood1, hheads, hget1⟩ :=
    overwrite_good p1 hg (hm ▸ hfind)
  refine ⟨update_data store (prepare_sheet_id o) rn (int_repr p1),
    update_flight_matched allOk p1 rfl hcheck hread hfind,
    ((sheet_rows store (prepare_sheet_id o)).set i [d, int_repr p1]).map entryOf, ?_, hget1⟩
  have hgood' : groupGood (sheet_rows (update_data store (prepare_sheet_id o) rn
      (int_repr p1)) (prepare_sheet_id o)) := by
    rw [hsheet]
    exact hgood1
  have hr2 := read_flights_good hgood'
  rw [hsheet] at hr2
  exact hr2

/-- C1 witness: the amended statement applied to the well-formed two-entry
group of scenario 3, overwriting the stored 21650 with the lower 19999. -/
theorem C1_witness :
    groupGood (sheet_rows [("FROM_GDA", [["WAW", "21650"], ["BER", "46522"]])]
      (prepare_sheet_id "GDA")) ∧
    (∃ store1,
      update_flight allOk [("FROM_GDA", [["WAW", "21650"], ["BER", "46522"]])]
          "GDA" "WAW" 19999 = .ok store1 ∧
      ∃ m1, read_flights store1 "GDA" = .ok m1 ∧ dict_get m1 "WAW" = some 19999) :=
  ⟨by decide,
    C1_overwrite_always [("FROM_GDA", [["WAW", "21650"], ["BER", "46522"]])] "GDA" "WAW"
      21650 19999 [("WAW", 21650), ("BER", 46522)] (by decide) rfl (by decide)⟩

/-- C8 counterexample: with a malformed 1-column row ahead of `WAW`, the
first `reconcile(GDA, WAW, 19999)` lands on physical row 1 and turns the
malformed row into a valid entry; the second call then ranks `WAW` at 2 and
overwrites row 2 as well, so running the identical call twice does not give
the state reached after one call. -/
theorem C8_counterexample :
    update_flight allOk [("FROM_GDA", [["X"], ["WAW", "100"]])] "GDA" "WAW" 19999
      = .ok [("FROM_GDA", [["X", "19999"], ["WAW", "100"]])] ∧
    update_flight allOk [("FROM_GDA", [["X", "19999"], ["WAW", "100"]])] "GDA" "WAW" 19999
      = .ok [("FROM_GDA", [["X", "19999"], ["WAW", "19999"]])] ∧
    ([("FROM_GDA", [["X", "19999"], ["WAW", "19999"]])] : Store)
      ≠ [("FROM_GDA", [["X", "19999"], ["WAW", "100"]])] :=
  ⟨rfl, rfl, by decide⟩

/-- C8 (amended): on a store with distinct sheet titles and a well-formed
origin group — every stored row an exactly-2-column pair with a parseable
price and pairwise distinct destinations, the shape the engine itself
maintains — running `reconcile(o, d, p)` twice in succession ends in exactly
the state reached after running it once. -/
theorem C8_idempotent (store : Store) (o d : String) (p : Int)
    (hok : store_ok store)
    (hg : groupGood (sheet_rows store (prepare_sheet_id o))) :
    (update_flight allOk store o d p).bind (fun s1 => update_flight allOk s1 o d p)
      = update_flight allOk store o d p := by
  by_cases hcheck : check_if_sheet_exists store (prepare_sheet_id o) = true
  · have hread := read_flights_good hg
    cases hf : find_row_number ((sheet_rows store (prepare_sheet_id o)).map entryOf) d with
    | none =>
      -- novel destination: the first call appends, the second overwrites the
      -- appended row in place with the value it already holds
      have h1 : update_flight allOk store o d p
          = .ok (append_data store (prepare_sheet_id o) [[d, int_repr p]]) := by
        rw [update_flight_no_match allOk p hcheck hread hf,
          add_flight_existing rfl d p hcheck]
      rw [h1]
      show update_flight allOk (append_data store (prepare_sheet_id o) [[d, int_repr p]]) o d p
        = .ok (append_data store (prepare_sheet_id o) [[d, int_repr p]])
      have hcheck1 : check_if_sheet_exists
          (append_data store (prepare_sheet_id o) [[d, int_repr p]])
          (prepare_sheet_id o) = true := by
        rw [check_append_data]
        exact hcheck
      have hrows1 : sheet_rows (append_data store (prepare_sheet_id o) [[d, int_repr p]])
          (prepare_sheet_id o)
          = sheet_rows store (prepare_sheet_id o) ++ [[d, int_repr p]] :=
        sheet_rows_append_data _ hcheck
      have hdfresh : ∀ e ∈ (sheet_rows store (prepare_sheet_id o)).map entryOf,
          (e.1 == d) = false := (find_row_number_none_iff _ d).1 hf
      have hdnotin : d ∉ heads (sheet_rows store (prepare_sheet_id o)) := by
        intro hmem
        rw [← map_fst_entryOf] at hmem
        obtain ⟨e, he, hefst⟩ := List.mem_map.1 hmem
        have := hdfresh e he
        simp [hefst] at this
      have hgood1 : groupGood (sheet_rows store (prepare_sheet_id o) ++ [[d, int_repr p]]) := by
        constructor
        · intro r hr
          rcases List.mem_append.1 hr with h | h
          · exact hg.1 r h
          · simp only [List.mem_singleton] at h
            subst h
            exact rowGoodB_price d p
        · rw [heads, List.map_append, List.nodup_append]
          refine ⟨hg.2, by simp, ?_⟩
          intro x hx hx2
          simp only [List.map_cons, List.map_nil, List.mem_singleton] at hx2
          have hxd : x = d := hx2
          exact hdnotin (hxd ▸ hx)
      have hread1 : read_flights (append_data store (prepare_sheet_id o) [[d, int_repr p]]) o
          = .ok ((sheet_rows store (prepare_sheet_id o)).map entryOf ++ [(d, p)]) := by
        have h3 := read_flights_good (by rw [hrows1]; exact hgood1)
        rw [hrows1] at h3
        simpa [entryOf_price] using h3
      have hfind1 : find_row_number
          ((sheet_rows store (prepare_sheet_id o)).map entryOf ++ [(d, p)]) d
          = some (((sheet_rows store (prepare_sheet_id o)).map entryOf).length + 1) :=
        find_row_number_append_last p hdfresh
      rw [update_flight_matched allOk p rfl hcheck1 hread1 hfind1]
      have hok1 : store_ok (append_data store (prepare_sheet_id o) [[d, int_repr p]]) := by
        rw [store_ok, map_fst_append_data]
        exact hok
      have hrows_eq : set_cell_B
          (sheet_rows (append_data store (prepare_sheet_id o) [[d, int_repr p]])
            (prepare_sheet_id o))
          (((sheet_rows store (prepare_sheet_id o)).map entryOf).length + 1) (int_repr p)
          = sheet_rows (append_data store (prepare_sheet_id o) [[d, int_repr p]])
            (prepare_sheet_id o) := by
        rw [hrows1, set_cell_B, Nat.add_sub_cancel, List.length_map, getD_append_len]
        show (sheet_rows store (prepare_sheet_id o) ++ [[d, int_repr p]]).set
            (sheet_rows store (prepare_sheet_id o)).length [d, int_repr p]
          = sheet_rows store (prepare_sheet_id o) ++ [[d, int_repr p]]
        calc (sheet_rows store (prepare_sheet_id o) ++ [[d, int_repr p]]).set
              (sheet_rows store (prepare_sheet_id o)).length [d, int_repr p]
            = (sheet_rows store (prepare_sheet_id o) ++ [[d, int_repr p]]).set
              (sheet_rows store (prepare_sheet_id o)).length
              ((sheet_rows store (prepare_sheet_id o) ++ [[d, int_repr p]]).getD
                (sheet_rows store (prepare_sheet_id o)).length []) := by
              rw [getD_append_len]
          _ = sheet_rows store (prepare_sheet_id o) ++ [[d, int_repr p]] :=
              set_getD_self (by simp) []
      rw [update_data_self hok1 hrows_eq]
    | some rn =>
      -- existing destination: both calls overwrite the same cell with the
      -- same rendered price
      obtain ⟨i, hrn, hlt, hsheet, hgood1, hheads, hget1⟩ := overwrite_good p hg hf
      rw [update_flight_matched allOk p rfl hcheck hread hf]
      show update_flight allOk (update_data store (prepare_sheet_id o) rn (int_repr p)) o d p
        = .ok (update_data store (prepare_sheet_id o) rn (int_repr p))
      have hcheck1 : check_if_sheet_exists
          (update_data store (prepare_sheet_id o) rn (int_repr p))
          (prepare_sheet_id o) = true := by
        rw [check_update_data]
        exact hcheck
      have hread1 : read_flights (update_data store (prepare_sheet_id o) rn (int_repr p)) o
          = .ok (((sheet_rows store (prepare_sheet_id o)).set i [d, int_repr p]).map
              entryOf) := by
        have h3 := read_flights_good (by rw [hsheet]; exact hgood1)
        rw [hsheet] at h3
        exact h3
      have hkeys : (((sheet_rows store (prepare_sheet_id o)).set i [d, int_repr p]).map
          entryOf).map Prod.fst
          = ((sheet_rows store (prepare_sheet_id o)).map entryOf).map Prod.fst := by
        rw [map_fst_entryOf, map_fst_entryOf, hheads]
      have hfind1 : find_row_number
          (((sheet_rows store (prepare_sheet_id o)).set i [d, int_repr p]).map entryOf) d
          = some rn := by
        rw [find_row_number_keys _ _ hkeys]
        exact hf
      rw [update_flight_matched allOk p rfl hcheck1 hread1 hfind1]
      have hok1 : store_ok (update_data store (prepare_sheet_id o) rn (int_repr p)) := by
        rw [store_ok, map_fst_update_data]
        exact hok
      have hrows_eq : set_cell_B
          (sheet_rows (update_data store (prepare_sheet_id o) rn (int_repr p))
            (prepare_sheet_id o)) rn (int_repr p)
          = sheet_rows (update_data store (prepare_sheet_id o) rn (int_repr p))
            (prepare_sheet_id o) := by
        rw [hsheet, hrn, set_cell_B, Nat.add_sub_cancel, getD_set_self hlt]
        show ((sheet_rows store (prepare_sheet_id o)).set i [d, int_repr p]).set i
            [d, int_repr p]
          = (sheet_rows store (prepare_sheet_id o)).set i [d, int_repr p]
        rw [List.set_set]
      rw [update_data_self hok1 hrows_eq]
  · -- new origin: the first call creates the sheet and appends the single
    -- row, the second overwrites that row in place with the same value
    have hc' : check_if_sheet_exists store (prepare_sheet_id o) = false := by
      simpa using hcheck
    have h1 : update_flight allOk store o d p
        = .ok (store ++ [(prepare_sheet_id o, [[d, int_repr p]])]) := by
      rw [update_flight_new_origin allOk d p hc', add_flight_new rfl rfl d p hc']
    rw [h1]
    show update_flight allOk (store ++ [(prepare_sheet_id o, [[d, int_repr p]])]) o d p
      = .ok (store ++ [(prepare_sheet_id o, [[d, int_repr p]])])
    have hcheck1 : check_if_sheet_exists (store ++ [(prepare_sheet_id o, [[d, int_repr p]])])
        (prepare_sheet_id o) = true := check_append_self _ _ _
    have hrows1 : sheet_rows (store ++ [(prepare_sheet_id o, [[d, int_repr p]])])
        (prepare_sheet_id o) = [[d, int_repr p]] := sheet_rows_append_new _ hc'
    have hgood1 : groupGood (sheet_rows (store ++ [(prepare_sheet_id o, [[d, int_repr p]])])
        (prepare_sheet_id o)) := by
      rw [hrows1]
      constructor
      · intro r hr
        simp only [List.mem_singleton] at hr
        subst hr
        exact rowGoodB_price d p
      · simp [heads]
    have hread1 : read_flights (store ++ [(prepare_sheet_id o, [[d, int_repr p]])]) o
        = .ok [(d, p)] := by
      have h3 := read_flights_good hgood1
      rw [hrows1] at h3
      simpa [entryOf_price] using h3
    have hfind1 : find_row_number [(d, p)] d = some 1 := by
      simp [find_row_number]
    rw [update_flight_matched allOk p rfl hcheck1 hread1 hfind1]
    have hok1 : store_ok (store ++ [(prepare_sheet_id o, [[d, int_repr p]])]) := by
      rw [store_ok, List.map_append, List.nodup_append]
      refine ⟨hok, by simp, ?_⟩
      intro x hx hx2
      simp only [List.map_cons, List.map_nil, List.mem_singleton] at hx2
      obtain ⟨s, hs, hsx⟩ := List.mem_map.1 hx
      exact check_false_iff.1 hc' s hs (by rw [hsx, hx2])
    have hrows_eq : set_cell_B
        (sheet_rows (store ++ [(prepare_sheet_id o, [[d, int_repr p]])]) (prepare_sheet_id o))
        1 (int_repr p)
        = sheet_rows (store ++ [(prepare_sheet_id o, [[d, int_repr p]])])
          (prepare_sheet_id o) := by
      rw [hrows1]
      rfl
    rw [update_data_self hok1 hrows_eq]

/-- C8 witness: the amended statement at the two-entry scenario store, which
has distinct titles and a well-formed group. -/
theorem C8_witness :
    store_ok [("FROM_GDA", [["WAW", "21650"], ["BER", "46522"]])] ∧
    groupGood (sheet_rows [("FROM_GDA", [["WAW", "21650"], ["BER", "46522"]])]
      (prepare_sheet_id "GDA")) ∧
    (update_flight allOk [("FROM_GDA", [["WAW", "21650"], ["BER", "46522"]])]
        "GDA" "WAW" 19999).bind
      (fun s1 => update_flight allOk s1 "GDA" "WAW" 19999)
      = update_flight allOk [("FROM_GDA", [["WAW", "21650"], ["BER", "46522"]])]
        "GDA" "WAW" 19999 :=
  ⟨by decide, by decide,
    C8_idempotent [("FROM_GDA", [["WAW", "21650"], ["BER", "46522"]])] "GDA" "WAW" 19999
      (by decide) (by decide)⟩

end FlightDeals
